import Mathlib

/-!
Shallow embedding of the relay-hub signalling logic of the web-rtc
repository (backend `SignalingGateway` and the frontend producer page's
ICE-candidate queue), together with theorems settling the frozen claims
about it.

Conventions:
* client ids, peer-connection ids and candidates are `Nat`;
* a media track's `readyState` is `live`, `ended` or `other`
  (the source compares the string `readyState` against the literals
  `live` and `ended`; every further value falls in `other`);
* asynchronous callbacks (timers, `ontrack`, monitor updates,
  connection-state changes) are delivered as explicit messages to the
  gateway step function, so a run of the hub is a list of messages.
-/

namespace WebRtcHub

/-- Track kind, source field `track.kind`. -/
inductive TrackKind where
  | video
  | audio
deriving DecidableEq, Repr

/-- Track ready state, source field `track.readyState`. -/
inductive ReadyState where
  | live
  | ended
  | other
deriving DecidableEq, Repr

/-- A media track as the gateway observes it. -/
structure Track where
  id : Nat
  kind : TrackKind
  readyState : ReadyState
  enabled : Bool
deriving DecidableEq, Repr

/-- A media stream: the source `MediaStream` is a bag of tracks. -/
structure Stream where
  tracks : List Track
deriving DecidableEq, Repr

/-- A peer connection as the gateway mutates it: its identity, whether
`setRemoteDescription` has completed, the candidates applied to it via
`addIceCandidate` in order, its outbound (sender) tracks and its inbound
(receiver) tracks. -/
structure PC where
  pcId : Nat
  hasRemoteDesc : Bool
  applied : List Nat
  outTracks : List Track
  recvTracks : List Track
deriving DecidableEq, Repr

/-- Observable events emitted by the gateway handlers (socket emits,
log warnings, connection lifecycle, scheduled timers). -/
inductive Ev where
  | producerClosed (pcId : Nat)
  | producerCreated (pcId : Nat)
  | consumerClosed (pcId : Nat)
  | consumerCreated (pcId : Nat)
  | emitStartWebrtc (client : Nat)
  | emitAnswer (client : Nat)
  | emitOfferTo (client : Nat)
  | candidateApplied (pcId cand : Nat)
  | warnUnroutedCandidate (client : Nat)
  | warnNoClient (client : Nat)
  | warnNoReceiverPC (client : Nat)
  | scheduledReceiverConn (client delayMs : Nat)
  | scheduledTrackWait (client : Nat)
  | deferredLiveWatch (trackId : Nat)
  | waitForLive (trackId : Nat)
  | errorLogged
deriving DecidableEq, Repr

/-- The mutable state of `SignalingGateway`. `wrtcLoaded` models whether
the optional wrtc runtime was loaded at startup. -/
structure GW where
  wrtcLoaded : Bool
  connections : List Nat
  senderPC : Option PC
  senderClientId : Option Nat
  receiverPCs : List (Nat × PC)
  receivedStream : Option Stream
  nextId : Nat
deriving DecidableEq, Repr

/-- Lookup in the receiver map (`Map.get`). -/
def getPC : List (Nat × PC) → Nat → Option PC
  | [], _ => none
  | (k, v) :: rest, c => if k = c then some v else getPC rest c

/-- Overwrite/insert in the receiver map (`Map.set`). -/
def setPC : List (Nat × PC) → Nat → PC → List (Nat × PC)
  | [], k, v => [(k, v)]
  | (k', v') :: rest, k, v =>
      if k' = k then (k, v) :: rest else (k', v') :: setPC rest k v

/-- Delete from the receiver map (`Map.delete`). -/
def delPC : List (Nat × PC) → Nat → List (Nat × PC)
  | [], _ => []
  | (k', v') :: rest, k =>
      if k' = k then rest else (k', v') :: delPC rest k

/-- Number of entries the receiver map holds under a key. -/
def countKey (l : List (Nat × PC)) (k : Nat) : Nat :=
  l.countP (fun e => e.1 = k)

/-- Tracks of the optional received stream (`receivedStream?.getTracks() ?? []`). -/
def streamTracks : Option Stream → List Track
  | none => []
  | some st => st.tracks

/-- Whether a track is eligible to be forwarded: `readyState === 'live'`. -/
def isLive (t : Track) : Bool := t.readyState = ReadyState.live

/-- `handleConnectionAccept`: logs and emits `start-webrtc` to the client. -/
def handleConnectionAccept (client : Nat) (s : GW) : GW × List Ev :=
  (s, [Ev.emitStartWebrtc client])

/-- `handleConnection`: registers the client, immediately invokes
`handleConnectionAccept` (automatic admission), and — when a received
stream already exists — schedules `createReceiverConnection` for the
client after a 500 ms settling delay. -/
def handleConnection (client : Nat) (s : GW) : GW × List Ev :=
  let s1 : GW := { s with connections := s.connections ++ [client] }
  let r := handleConnectionAccept client s1
  if r.1.receivedStream.isSome then
    (r.1, r.2 ++ [Ev.scheduledReceiverConn client 500])
  else r

/-- `handleDisconnect`: removes the client; if it was the producer
(`senderClientId === client.id && senderPeerConnection`), closes the
producer connection and clears the received stream; if the client has a
receiver connection, closes and removes it. -/
def handleDisconnect (client : Nat) (s : GW) : GW × List Ev :=
  let s1 : GW := { s with connections := s.connections.filter (· ≠ client) }
  let r : GW × List Ev :=
    if s1.senderClientId = some client then
      match s1.senderPC with
      | some pc =>
          ({ s1 with senderPC := none, senderClientId := none,
                     receivedStream := none },
           [Ev.producerClosed pc.pcId])
      | none => (s1, [])
    else (s1, [])
  match getPC r.1.receiverPCs client with
  | some rpc =>
      ({ r.1 with receiverPCs := delPC r.1.receiverPCs client },
       r.2 ++ [Ev.consumerClosed rpc.pcId])
  | none => r

/-- `createReceiverConnection clientId`: guarded by the wrtc runtime and
the client's membership; closes a pre-existing receiver connection for
the client; creates a fresh connection; attaches only the live tracks of
the received stream (when the stream exists but holds no live track, a
bounded wait for liveness is scheduled instead); registers the connection
in the receiver map; creates and emits the offer. -/
def createReceiverConnection (client : Nat) (s : GW) : GW × List Ev :=
  if s.wrtcLoaded = false then (s, [Ev.errorLogged])
  else if client ∈ s.connections then
    let closeEvs : List Ev :=
      match getPC s.receiverPCs client with
      | some old => [Ev.consumerClosed old.pcId]
      | none => []
    let liveTracks := (streamTracks s.receivedStream).filter isLive
    let waitEvs : List Ev :=
      if s.receivedStream.isSome ∧ liveTracks = [] then
        [Ev.scheduledTrackWait client]
      else []
    let newPC : PC :=
      { pcId := s.nextId, hasRemoteDesc := false, applied := [],
        outTracks := liveTracks, recvTracks := [] }
    ({ s with receiverPCs := setPC s.receiverPCs client newPC,
              nextId := s.nextId + 1 },
     closeEvs ++ waitEvs ++ [Ev.consumerCreated newPC.pcId, Ev.emitOfferTo client])
  else (s, [Ev.warnNoClient client])

/-- The pending-receiver loop at the end of `processLiveTrack`:
for every connected client with no receiver connection, other than the
producing client, create one. The map is re-read each iteration, as in
the source (`this.receiverPeerConnections.has(clientId)`). -/
def createPendingReceivers (senderId : Nat) : List Nat → GW → GW × List Ev
  | [], s => (s, [])
  | c :: rest, s =>
      if getPC s.receiverPCs c = none ∧ c ≠ senderId then
        let r1 := createReceiverConnection c s
        let r2 := createPendingReceivers senderId rest r1.1
        (r2.1, r1.2 ++ r2.2)
      else createPendingReceivers senderId rest s

/-- `processLiveTrack`: stores the received stream (the first delivered
stream, or a fresh one wrapping the track), then creates receiver
connections for clients that were waiting for a stream. -/
def processLiveTrack (t : Track) (streams : List Stream) (senderId : Nat)
    (s : GW) : GW × List Ev :=
  let stream : Stream :=
    match streams with
    | st :: _ => st
    | [] => Stream.mk [t]
  let s1 : GW := { s with receivedStream := some stream }
  createPendingReceivers senderId s1.connections s1

/-- `handleTrackReceived`: re-checks liveness; a non-live track is not
promoted — a bounded wait (100 × 100 ms) for it to become live is set up
instead; a live track is processed. -/
def handleTrackReceived (t : Track) (streams : List Stream) (senderId : Nat)
    (s : GW) : GW × List Ev :=
  if t.readyState = ReadyState.live then
    processLiveTrack t streams senderId s
  else
    (s, [Ev.waitForLive t.id])

/-- The `ontrack` closure on the producer connection: a track that is
not live is recorded but not promoted — a bounded re-check interval
(50 × 100 ms) is scheduled; a live track is processed immediately. -/
def ontrackHandler (t : Track) (streams : List Stream) (senderId : Nat)
    (s : GW) : GW × List Ev :=
  if t.readyState = ReadyState.live then
    processLiveTrack t streams senderId s
  else
    (s, [Ev.deferredLiveWatch t.id])

/-- `handleOffer`: guarded by the wrtc runtime; closes any existing
producer connection first, then records the offering client as the
producer and creates the fresh producer connection with the remote
description set from the offer; if the receivers already expose a live
video track after the answer, it is processed immediately; finally the
answer is emitted. The `tracks` argument models the receiver tracks the
new connection exposes after the answer (`getReceivers()`). -/
def handleOffer (client : Nat) (tracks : List Track) (s : GW) : GW × List Ev :=
  if s.wrtcLoaded = false then (s, [Ev.errorLogged])
  else
    let r1 : GW × List Ev :=
      match s.senderPC with
      | some old =>
          ({ s with senderPC := none, senderClientId := none },
           [Ev.producerClosed old.pcId])
      | none => (s, [])
    let newPC : PC :=
      { pcId := r1.1.nextId, hasRemoteDesc := true, applied := [],
        outTracks := [], recvTracks := tracks }
    let s2 : GW :=
      { r1.1 with senderPC := some newPC, senderClientId := some client,
                  nextId := r1.1.nextId + 1 }
    match (tracks.filter (fun t => t.kind = TrackKind.video)).filter isLive with
    | t :: _ =>
        let r3 := handleTrackReceived t [] client s2
        (r3.1, r1.2 ++ [Ev.producerCreated newPC.pcId] ++ r3.2 ++ [Ev.emitAnswer client])
    | [] =>
        (s2, r1.2 ++ [Ev.producerCreated newPC.pcId, Ev.emitAnswer client])

/-- `handleAnswer`: a consumer's answer sets the remote description of
that client's receiver connection; a missing connection is tolerated
with a warning. -/
def handleAnswer (client : Nat) (s : GW) : GW × List Ev :=
  match getPC s.receiverPCs client with
  | some rpc =>
      if s.wrtcLoaded = false then (s, [Ev.errorLogged])
      else
        let rpc2 : PC := { rpc with hasRemoteDesc := true }
        ({ s with receiverPCs := setPC s.receiverPCs client rpc2 }, [])
  | none => (s, [Ev.warnNoReceiverPC client])

/-- `handleIceCandidate` (server side): guarded by the wrtc runtime.
If the producer connection exists and its remote description is set, the
candidate is applied to it — the sending client's id is not consulted.
Otherwise, if the sending client has a receiver connection with its
remote description set, the candidate is applied there. Otherwise the
candidate is dropped with a warning; the server keeps no queue. -/
def handleIceCandidate (client cand : Nat) (s : GW) : GW × List Ev :=
  if s.wrtcLoaded = false then (s, [Ev.errorLogged])
  else
    match s.senderPC with
    | some pc =>
        if pc.hasRemoteDesc then
          ({ s with senderPC := some { pc with applied := pc.applied ++ [cand] } },
           [Ev.candidateApplied pc.pcId cand])
        else
          match getPC s.receiverPCs client with
          | some rpc =>
              if rpc.hasRemoteDesc then
                let rpc2 : PC := { rpc with applied := rpc.applied ++ [cand] }
                ({ s with receiverPCs := setPC s.receiverPCs client rpc2 },
                 [Ev.candidateApplied rpc.pcId cand])
              else (s, [Ev.warnUnroutedCandidate client])
          | none => (s, [Ev.warnUnroutedCandidate client])
    | none =>
        match getPC s.receiverPCs client with
        | some rpc =>
            if rpc.hasRemoteDesc then
              let rpc2 : PC := { rpc with applied := rpc.applied ++ [cand] }
              ({ s with receiverPCs := setPC s.receiverPCs client rpc2 },
               [Ev.candidateApplied rpc.pcId cand])
            else (s, [Ev.warnUnroutedCandidate client])
        | none => (s, [Ev.warnUnroutedCandidate client])

/-- Inbound messages and asynchronous callback firings the gateway
reacts to:
* the socket events handled by `SignalingGateway` (`connect`,
  `disconnect`, `connection-accept`, `connection-reject`, `webrtc-offer`,
  `webrtc-answer`, `webrtc-ice-candidate`);
* `receiverConnTimer`: the 500 ms timer scheduled by `handleConnection`;
* `ontrackEv`: the runtime delivering a track on the producer connection;
* `monitorUpdate`: a write of the received stream by the liveness
  monitor — the monitor only ever promotes a track it observed live, or
  clears the stream;
* `senderConnFailed`: the producer connection reporting `disconnected`
  or `failed`, which clears the received stream;
* `receiverConnFailed`: a receiver connection reporting `disconnected`
  or `failed`, which removes it from the map. -/
inductive Msg where
  | connect (client : Nat)
  | disconnect (client : Nat)
  | connectionAccept (client : Nat)
  | connectionReject (client : Nat)
  | offer (client : Nat) (tracks : List Track)
  | answer (client : Nat)
  | candidate (client cand : Nat)
  | receiverConnTimer (client : Nat)
  | ontrackEv (t : Track) (streams : List Stream)
  | monitorUpdate (r : Option Track)
  | senderConnFailed
  | receiverConnFailed (client : Nat)
deriving DecidableEq, Repr

/-- One reaction of the gateway to a message or callback firing. -/
def stepGW (m : Msg) (s : GW) : GW × List Ev :=
  match m with
  | Msg.connect c => handleConnection c s
  | Msg.disconnect c => handleDisconnect c s
  | Msg.connectionAccept c => handleConnectionAccept c s
  | Msg.connectionReject c => handleDisconnect c s
  | Msg.offer c tracks => handleOffer c tracks s
  | Msg.answer c => handleAnswer c s
  | Msg.candidate c cand => handleIceCandidate c cand s
  | Msg.receiverConnTimer c => createReceiverConnection c s
  | Msg.ontrackEv t streams =>
      match s.senderPC, s.senderClientId with
      | some pc, some sid =>
          let pc2 : PC := { pc with recvTracks := pc.recvTracks ++ [t] }
          ontrackHandler t streams sid { s with senderPC := some pc2 }
      | _, _ => (s, [])
  | Msg.monitorUpdate r =>
      match s.senderPC with
      | none => (s, [])
      | some _ =>
          match r with
          | some t =>
              if t.readyState = ReadyState.live then
                ({ s with receivedStream := some (Stream.mk [t]) }, [])
              else (s, [])
          | none => ({ s with receivedStream := none }, [])
  | Msg.senderConnFailed =>
      match s.senderPC with
      | some _ => ({ s with receivedStream := none }, [])
      | none => (s, [])
  | Msg.receiverConnFailed c =>
      ({ s with receiverPCs := delPC s.receiverPCs c }, [])

/-- A run of the gateway over a message list, accumulating events. -/
def runGW (s : GW) : List Msg → GW × List Ev
  | [] => (s, [])
  | m :: ms =>
      let r1 := stepGW m s
      let r2 := runGW r1.1 ms
      (r2.1, r1.2 ++ r2.2)

/-- The gateway's startup state: `wrtcLoaded` records whether the
optional wrtc runtime was found. -/
def initGW (wrtcLoaded : Bool) : GW :=
  { wrtcLoaded := wrtcLoaded, connections := [], senderPC := none,
    senderClientId := none, receiverPCs := [], receivedStream := none,
    nextId := 0 }

/-! ### Trace accounting of producer connections -/

/-- Update the list of currently open producer connections by one event. -/
def openProdStep (acc : List Nat) : Ev → List Nat
  | Ev.producerCreated i => acc ++ [i]
  | Ev.producerClosed i => acc.filter (· ≠ i)
  | _ => acc

/-- Producer connections open at the end of a trace (created and not
subsequently closed). -/
def openProd (evs : List Ev) : List Nat := evs.foldl openProdStep []

/-- Producer-connection ids held by the state. -/
def prodIds (s : GW) : List Nat :=
  match s.senderPC with
  | some pc => [pc.pcId]
  | none => []

/-- Events that neither create nor close a producer connection. -/
def prodNeutral : Ev → Bool
  | Ev.producerClosed _ => false
  | Ev.producerCreated _ => false
  | _ => true

/-- The receiver map holds at most one connection per client key. -/
def RPok (s : GW) : Prop := ∀ k, countKey s.receiverPCs k ≤ 1

/-! ### The liveness monitor's ended branch -/

/-- Video tracks of a receiver snapshot that are live:
`receivers → kind video → readyState live` filters of `monitorTrack`. -/
def liveVideos : List Track → List Track
  | [] => []
  | t :: rest =>
      if t.kind = TrackKind.video ∧ t.readyState = ReadyState.live then
        t :: liveVideos rest
      else liveVideos rest

/-- First live video track of a snapshot (`currentLiveTracks[0]`). -/
def firstLiveVideo (ts : List Track) : Option Track := (liveVideos ts).head?

/-- The replacement preference of the ended branch at the moment the end
is observed: a live track with a different id is preferred, else the
first live track (`liveTracks.find(t => t.id !== currentTrack.id) ||
liveTracks[0]`). -/
def findOtherId (curId : Nat) : List Track → Option Track
  | [] => none
  | t :: rest => if t.id ≠ curId then some t else findOtherId curId rest

/-- Promotion choice among the live video tracks of the first snapshot. -/
def promoteChoice (cur : Track) (lv : List Track) : Option Track :=
  match findOtherId cur.id lv with
  | some t => some t
  | none => lv.head?

/-- The bounded re-poll of the ended branch: one tick every 200 ms,
`checkCount` capped at 50. `fuel` is the number of remaining attempts;
`tick` indexes the snapshot of `getReceivers()` observed at that attempt. -/
def pollForLive (snaps : Nat → List Track) : Nat → Nat → Option Track
  | _, 0 => none
  | tick, fuel + 1 =>
      match firstLiveVideo (snaps tick) with
      | some t => some t
      | none => pollForLive snaps (tick + 1) fuel

/-- Outcome of the ended branch of `monitorTrack`: the immediate scan of
snapshot 0, then the bounded 50-attempt interval over snapshots 1..50. -/
def endedBranchResult (cur : Track) (snaps : Nat → List Track) : Option Track :=
  match promoteChoice cur (liveVideos (snaps 0)) with
  | some t => some t
  | none => pollForLive snaps 1 50

/-- The received stream after the ended branch finishes: the promoted
track wrapped in a fresh stream, or cleared when the bounded search gave
up. -/
def endedBranchStream (cur : Track) (snaps : Nat → List Track) : Option Stream :=
  match endedBranchResult cur snaps with
  | some t => some (Stream.mk [t])
  | none => none

end WebRtcHub

/-! ### Frontend producer page (ScreenShare): candidate queue -/

namespace WebRtcClient

open WebRtcHub

/-- The producer page's peer connection as the candidate handlers see
it: whether the signaling state is closed, whether the remote
description is set, and the candidates applied in order. `fails`
appearing in the operations below models which candidates the runtime
rejects in `addIceCandidate`. -/
structure CPC where
  closed : Bool
  hasRemoteDesc : Bool
  applied : List Nat
deriving DecidableEq, Repr

/-- State the two candidate handlers of ScreenShare touch:
`peerConnectionRef` and `iceCandidateQueueRef`. -/
structure CState where
  pc : Option CPC
  queue : List Nat
deriving DecidableEq, Repr

/-- Apply a list of candidates in order; a failing candidate is logged
and skipped, the rest are still applied (the loop body's try/catch). -/
def applyAll (fails : Nat → Bool) : CPC → List Nat → CPC
  | pc, [] => pc
  | pc, c :: rest =>
      if fails c then applyAll fails pc rest
      else applyAll fails { pc with applied := pc.applied ++ [c] } rest

/-- `processIceCandidateQueue`: returns untouched when the queue is
empty or the remote description is still missing; otherwise takes the
whole queue, empties it, and applies the taken candidates in FIFO
order, counting failures without aborting. -/
def processIceCandidateQueue (fails : Nat → Bool) (pc : CPC)
    (queue : List Nat) : CPC × List Nat :=
  if queue = [] then (pc, queue)
  else if pc.hasRemoteDesc = false then (pc, queue)
  else (applyAll fails pc queue, [])

/-- `handleIceCandidate` (producer page): ignores candidates without a
connection or on a closed connection; queues the candidate when the
remote description is missing; otherwise applies it immediately and
re-queues it if the application fails. -/
def clientHandleIceCandidate (fails : Nat → Bool) (st : CState)
    (cand : Nat) : CState :=
  match st.pc with
  | none => st
  | some pc =>
      if pc.closed then st
      else if pc.hasRemoteDesc = false then
        { st with queue := st.queue ++ [cand] }
      else if fails cand then
        { st with queue := st.queue ++ [cand] }
      else
        { st with pc := some { pc with applied := pc.applied ++ [cand] } }

end WebRtcClient

namespace WebRtcHub

/-! ### Concrete states used to instantiate the theorems -/

/-- A producer connection with its remote description set. -/
def pcA : PC :=
  { pcId := 10, hasRemoteDesc := true, applied := [], outTracks := [],
    recvTracks := [] }

/-- A producer connection whose remote description is not yet set. -/
def pcNoRD : PC :=
  { pcId := 10, hasRemoteDesc := false, applied := [], outTracks := [],
    recvTracks := [] }

/-- A consumer connection with its remote description set. -/
def rpcB : PC :=
  { pcId := 11, hasRemoteDesc := true, applied := [], outTracks := [],
    recvTracks := [] }

/-- An ended video track. -/
def endedTrack : Track :=
  { id := 5, kind := TrackKind.video, readyState := ReadyState.ended,
    enabled := true }

/-- A live video track. -/
def liveTrack : Track :=
  { id := 6, kind := TrackKind.video, readyState := ReadyState.live,
    enabled := true }

/-- Producer client 0 active with remote description set; consumer
client 1 with a registered receiver connection with remote description
set. -/
def stMisroute : GW :=
  { wrtcLoaded := true, connections := [0, 1], senderPC := some pcA,
    senderClientId := some 0, receiverPCs := [(1, rpcB)],
    receivedStream := none, nextId := 12 }

/-- Producer client 0 active but its remote description not yet set. -/
def stDrop : GW :=
  { wrtcLoaded := true, connections := [0], senderPC := some pcNoRD,
    senderClientId := some 0, receiverPCs := [], receivedStream := none,
    nextId := 11 }

/-- A received stream whose only track has ended; client 1 connected. -/
def stEnded : GW :=
  { wrtcLoaded := true, connections := [1], senderPC := none,
    senderClientId := none, receiverPCs := [],
    receivedStream := some (Stream.mk [endedTrack]), nextId := 0 }

/-- Producer client 0 active, no consumers. -/
def stProd : GW :=
  { wrtcLoaded := true, connections := [0], senderPC := some pcA,
    senderClientId := some 0, receiverPCs := [], receivedStream := none,
    nextId := 12 }

/-- Producer client 0 and consumer client 1 both active. -/
def stBoth : GW :=
  { wrtcLoaded := true, connections := [0, 1], senderPC := some pcA,
    senderClientId := some 0, receiverPCs := [(1, rpcB)],
    receivedStream := some (Stream.mk [liveTrack]), nextId := 12 }

/-! ### Map lemmas -/

theorem getPC_setPC_same (l : List (Nat × PC)) (k : Nat) (v : PC) :
    getPC (setPC l k v) k = some v := by
  induction l with
  | nil => simp [setPC, getPC]
  | cons kv rest ih =>
      obtain ⟨a, b⟩ := kv
      by_cases h : a = k
      · simp [setPC, h, getPC]
      · simp [setPC, h, getPC, ih]

theorem getPC_setPC_other (l : List (Nat × PC)) (k d : Nat) (v : PC)
    (hne : d ≠ k) : getPC (setPC l k v) d = getPC l d := by
  have hkd : ¬ k = d := fun hh => hne hh.symm
  induction l with
  | nil => simp [setPC, getPC, hkd]
  | cons kv rest ih =>
      obtain ⟨a, b⟩ := kv
      by_cases h : a = k
      · subst h
        simp [setPC, getPC, hkd]
      · simp [setPC, h, getPC, ih]

theorem getPC_delPC_other (l : List (Nat × PC)) (k d : Nat)
    (hne : d ≠ k) : getPC (delPC l k) d = getPC l d := by
  induction l with
  | nil => simp [delPC]
  | cons kv rest ih =>
      obtain ⟨a, b⟩ := kv
      by_cases h : a = k
      · subst h
        have had : ¬ a = d := fun hh => hne hh.symm
        simp [delPC, getPC, had]
      · simp [delPC, h, getPC, ih]

theorem countKey_nil (k : Nat) : countKey [] k = 0 := rfl

theorem countKey_cons (a : Nat) (b : PC) (rest : List (Nat × PC)) (k : Nat) :
    countKey ((a, b) :: rest) k
      = countKey rest k + (if a = k then 1 else 0) := by
  by_cases h : a = k <;> simp [countKey, List.countP_cons, h]

theorem getPC_none_of_countKey_zero (l : List (Nat × PC)) (k : Nat)
    (h : countKey l k = 0) : getPC l k = none := by
  induction l with
  | nil => rfl
  | cons kv rest ih =>
      obtain ⟨a, b⟩ := kv
      rw [countKey_cons] at h
      by_cases hk : a = k
      · rw [if_pos hk] at h
        omega
      · rw [if_neg hk] at h
        simp only [getPC, if_neg hk]
        exact ih (by omega)

theorem getPC_delPC_self (l : List (Nat × PC)) (k : Nat)
    (h : countKey l k ≤ 1) : getPC (delPC l k) k = none := by
  induction l with
  | nil => rfl
  | cons kv rest ih =>
      obtain ⟨a, b⟩ := kv
      rw [countKey_cons] at h
      by_cases hk : a = k
      · rw [if_pos hk] at h
        simp only [delPC, if_pos hk]
        exact getPC_none_of_countKey_zero rest k (by omega)
      · rw [if_neg hk] at h
        simp only [delPC, if_neg hk, getPC, if_neg hk]
        exact ih (by omega)

theorem countKey_delPC_le (l : List (Nat × PC)) (k d : Nat) :
    countKey (delPC l k) d ≤ countKey l d := by
  induction l with
  | nil => simp [delPC]
  | cons kv rest ih =>
      obtain ⟨a, b⟩ := kv
      by_cases hk : a = k
      · simp only [delPC, if_pos hk, countKey_cons]
        omega
      · simp only [delPC, if_neg hk, countKey_cons]
        omega

theorem countKey_setPC_same (l : List (Nat × PC)) (k : Nat) (v : PC)
    (h : countKey l k ≤ 1) : countKey (setPC l k v) k ≤ 1 := by
  induction l with
  | nil => simp [setPC, countKey_cons, countKey_nil]
  | cons kv rest ih =>
      obtain ⟨a, b⟩ := kv
      rw [countKey_cons] at h
      by_cases hk : a = k
      · rw [if_pos hk] at h
        simp [setPC, if_pos hk, countKey_cons]
        omega
      · rw [if_neg hk] at h
        simp only [setPC, if_neg hk, countKey_cons, if_neg hk]
        have := ih (by omega)
        omega

theorem countKey_setPC_other (l : List (Nat × PC)) (k d : Nat) (v : PC)
    (hne : d ≠ k) : countKey (setPC l k v) d = countKey l d := by
  have hkd : ¬ k = d := fun hh => hne hh.symm
  induction l with
  | nil => simp [setPC, countKey_cons, countKey_nil, hkd]
  | cons kv rest ih =>
      obtain ⟨a, b⟩ := kv
      by_cases hk : a = k
      · subst hk
        simp [setPC, countKey_cons, hkd]
      · simp only [setPC, if_neg hk, countKey_cons, ih]

end WebRtcHub

namespace WebRtcClient

/-- The loop of `processIceCandidateQueue` appends exactly the
non-failing candidates, in their original order. -/
theorem applyAll_applied (fails : Nat → Bool) (pc : CPC) (l : List Nat) :
    (applyAll fails pc l).applied
      = pc.applied ++ l.filter (fun c => !(fails c)) := by
  induction l generalizing pc with
  | nil => simp [applyAll]
  | cons c rest ih =>
      by_cases hf : fails c = true
      · simp [applyAll, hf, ih]
      · simp [applyAll, hf, ih]

end WebRtcClient

open WebRtcHub WebRtcClient

/-- Claim C2: for every sequence of candidates queued while the
connection had no remote description, once the remote description is
set, the flush applies the queued candidates in original arrival (FIFO)
order — an individual failure does not abort the remaining candidates —
and the queue is empty when the flush completes. -/
theorem C2_flush_fifo_and_empty (fails : Nat → Bool) (pc : CPC)
    (queue : List Nat) (h : pc.hasRemoteDesc = true) :
    (processIceCandidateQueue fails pc queue).2 = [] ∧
    (processIceCandidateQueue fails pc queue).1.applied
      = pc.applied ++ queue.filter (fun c => !(fails c)) := by
  unfold processIceCandidateQueue
  by_cases hq : queue = []
  · subst hq
    simp
  · simp [hq, h, applyAll_applied]

/-- Witness for C2 at a concrete queue where the middle candidate fails. -/
theorem C2_witness :
    (processIceCandidateQueue (fun c => decide (c = 5))
        { closed := false, hasRemoteDesc := true, applied := [] } [4, 5, 6]).2
      = [] ∧
    (processIceCandidateQueue (fun c => decide (c = 5))
        { closed := false, hasRemoteDesc := true, applied := [] } [4, 5, 6]).1.applied
      = ({ closed := false, hasRemoteDesc := true, applied := [] } : CPC).applied
          ++ [4, 5, 6].filter (fun c => !(decide (c = 5))) :=
  C2_flush_fifo_and_empty (fun c => decide (c = 5))
    { closed := false, hasRemoteDesc := true, applied := [] } [4, 5, 6] rfl

/-- Claim C3 (evaluation at the failing input): in `stMisroute` the
producer is client 0 and client 1 has its own consumer connection, yet
the candidate client 1 sends is applied to the producer connection
(id 10) and never reaches client 1's consumer connection (id 11): the
hub routes by producer-connection availability, not by client id. -/
theorem C3_candidate_misrouted_to_producer :
    (handleIceCandidate 1 99 stMisroute).1.senderPC
      = some { pcId := 10, hasRemoteDesc := true, applied := [99],
               outTracks := [], recvTracks := [] } ∧
    getPC (handleIceCandidate 1 99 stMisroute).1.receiverPCs 1 = some rpcB ∧
    (handleIceCandidate 1 99 stMisroute).2 = [Ev.candidateApplied 10 99] := by
  decide

/-- Claim C4 (counterexample): creating a consumer session while the
received stream's only track is `ended` does not fail — no error of any
kind exists in this path — and the session IS registered in the consumer
map, contradicting the claimed `TrackNotLiveError` failure. -/
theorem C4_counterexample_registered_despite_ended_track :
    getPC (createReceiverConnection 1 stEnded).1.receiverPCs 1
      = some { pcId := 0, hasRemoteDesc := false, applied := [],
               outTracks := [], recvTracks := [] } ∧
    (createReceiverConnection 1 stEnded).2
      = [Ev.scheduledTrackWait 1, Ev.consumerCreated 0, Ev.emitOfferTo 1] := by
  decide

/-- Claim C5 (counterexample): a candidate reaching the hub before the
producer connection's remote description is set is dropped with a
warning — the hub state is completely unchanged, so the candidate is not
retained in any queue. -/
theorem C5_counterexample_hub_drops_early_candidate :
    (handleIceCandidate 0 7 stDrop).1 = stDrop ∧
    (handleIceCandidate 0 7 stDrop).2 = [Ev.warnUnroutedCandidate 0] := by
  decide

/-- Claim C8: a track delivered in a non-live state is not promoted —
the gateway state is unchanged and a deferred liveness watch is
scheduled instead — and the received stream can only change when the
delivered track was observed live. -/
theorem C8_no_promotion_of_nonlive_track (t : Track) (streams : List Stream)
    (sid : Nat) (s : GW) :
    (t.readyState ≠ ReadyState.live →
       (ontrackHandler t streams sid s).1 = s ∧
       (ontrackHandler t streams sid s).2 = [Ev.deferredLiveWatch t.id] ∧
       (handleTrackReceived t streams sid s).1 = s ∧
       (handleTrackReceived t streams sid s).2 = [Ev.waitForLive t.id]) ∧
    ((ontrackHandler t streams sid s).1.receivedStream ≠ s.receivedStream →
       t.readyState = ReadyState.live) := by
  by_cases hl : t.readyState = ReadyState.live
  · exact ⟨fun hn => absurd hl hn, fun _ => hl⟩
  · constructor
    · intro _
      refine ⟨?_, ?_, ?_, ?_⟩ <;> simp [ontrackHandler, handleTrackReceived, hl]
    · intro hchange
      exact absurd (by simp [ontrackHandler, hl]) hchange

/-- Witness for C8: an ended track arriving at the producer session of
`stProd` changes nothing and schedules the deferred watch. -/
theorem C8_witness :
    (ontrackHandler endedTrack [] 0 stProd).1 = stProd ∧
    (ontrackHandler endedTrack [] 0 stProd).2
      = [Ev.deferredLiveWatch endedTrack.id] ∧
    (handleTrackReceived endedTrack [] 0 stProd).1 = stProd ∧
    (handleTrackReceived endedTrack [] 0 stProd).2
      = [Ev.waitForLive endedTrack.id] :=
  (C8_no_promotion_of_nonlive_track endedTrack [] 0 stProd).1 (by decide)

/-- Claim C10: connection handling performs admission automatically —
the client is registered and `start-webrtc` is emitted by the connect
handler itself (no `connection-accept` message is awaited), and when a
received stream exists a receiver-connection creation is scheduled after
a 500 ms settling delay. -/
theorem C10_auto_admission (c : Nat) (s : GW) :
    c ∈ (handleConnection c s).1.connections ∧
    (s.receivedStream.isSome = true →
       (handleConnection c s).2
         = [Ev.emitStartWebrtc c, Ev.scheduledReceiverConn c 500]) ∧
    (s.receivedStream = none →
       (handleConnection c s).2 = [Ev.emitStartWebrtc c]) ∧
    (handleConnectionAccept c s).2 = [Ev.emitStartWebrtc c] := by
  cases hrs : s.receivedStream with
  | none => simp [handleConnection, handleConnectionAccept, hrs]
  | some st => simp [handleConnection, handleConnectionAccept, hrs]

/-- Witness for C10: client 3 connecting to `stEnded`, which holds a
received stream. -/
theorem C10_witness :
    3 ∈ (handleConnection 3 stEnded).1.connections ∧
    (handleConnection 3 stEnded).2
      = [Ev.emitStartWebrtc 3, Ev.scheduledReceiverConn 3 500] :=
  ⟨(C10_auto_admission 3 stEnded).1,
   (C10_auto_admission 3 stEnded).2.1 rfl⟩

/-- Claim C7: a producer disconnect closes the producer connection and
clears the received stream while leaving every consumer connection
registered; a consumer disconnect removes only that consumer's
connection and leaves the producer connection and the received stream
unchanged. -/
theorem C7_disconnect_frame (c : Nat) (s : GW) :
    (∀ pc, s.senderClientId = some c → s.senderPC = some pc →
       (handleDisconnect c s).1.senderPC = none ∧
       (handleDisconnect c s).1.receivedStream = none ∧
       (∀ d, d ≠ c → getPC (handleDisconnect c s).1.receiverPCs d
           = getPC s.receiverPCs d) ∧
       (getPC s.receiverPCs c = none →
          (handleDisconnect c s).1.receiverPCs = s.receiverPCs ∧
          (handleDisconnect c s).2 = [Ev.producerClosed pc.pcId])) ∧
    (s.senderClientId ≠ some c →
       (handleDisconnect c s).1.senderPC = s.senderPC ∧
       (handleDisconnect c s).1.receivedStream = s.receivedStream ∧
       (countKey s.receiverPCs c ≤ 1 →
          getPC (handleDisconnect c s).1.receiverPCs c = none) ∧
       (∀ d, d ≠ c → getPC (handleDisconnect c s).1.receiverPCs d
           = getPC s.receiverPCs d) ∧
       (∀ rpc, getPC s.receiverPCs c = some rpc →
          (handleDisconnect c s).2 = [Ev.consumerClosed rpc.pcId])) := by
  constructor
  · intro pc h1 h2
    cases hg : getPC s.receiverPCs c with
    | none =>
        refine ⟨?_, ?_, ?_, ?_⟩ <;>
          simp [handleDisconnect, h1, h2, hg]
    | some rpc =>
        refine ⟨?_, ?_, ?_, ?_⟩
        · simp [handleDisconnect, h1, h2, hg]
        · simp [handleDisconnect, h1, h2, hg]
        · intro d hd
          simp [handleDisconnect, h1, h2, hg, getPC_delPC_other _ _ _ hd]
        · intro hnone
          simp [hg] at hnone
  · intro hns
    cases hg : getPC s.receiverPCs c with
    | none =>
        refine ⟨?_, ?_, ?_, ?_, ?_⟩
        · simp [handleDisconnect, hns, hg]
        · simp [handleDisconnect, hns, hg]
        · intro hcount
          simp [handleDisconnect, hns, hg]
        · intro d hd
          simp [handleDisconnect, hns, hg]
        · intro rpc hr
          simp [hg] at hr
    | some rpc =>
        refine ⟨?_, ?_, ?_, ?_, ?_⟩
        · simp [handleDisconnect, hns, hg]
        · simp [handleDisconnect, hns, hg]
        · intro hcount
          simp [handleDisconnect, hns, hg, getPC_delPC_self _ _ hcount]
        · intro d hd
          simp [handleDisconnect, hns, hg, getPC_delPC_other _ _ _ hd]
        · intro rpc2 hr
          have hrr : rpc = rpc2 := Option.some.inj hr
          subst hrr
          simp [handleDisconnect, hns, hg]

/-- Witness for C7: in `stBoth`, the disconnect of producer client 0
leaves consumer client 1's connection in place, and the disconnect of
consumer client 1 leaves the producer connection and stream in place. -/
theorem C7_witness :
    ((handleDisconnect 0 stBoth).1.senderPC = none ∧
     (handleDisconnect 0 stBoth).1.receivedStream = none ∧
     (handleDisconnect 0 stBoth).1.receiverPCs = stBoth.receiverPCs ∧
     (handleDisconnect 0 stBoth).2 = [Ev.producerClosed pcA.pcId]) ∧
    ((handleDisconnect 1 stBoth).1.senderPC = stBoth.senderPC ∧
     (handleDisconnect 1 stBoth).1.receivedStream = stBoth.receivedStream ∧
     getPC (handleDisconnect 1 stBoth).1.receiverPCs 1 = none ∧
     (handleDisconnect 1 stBoth).2 = [Ev.consumerClosed rpcB.pcId]) := by
  have h0 := (C7_disconnect_frame 0 stBoth).1 pcA rfl rfl
  have h1 := (C7_disconnect_frame 1 stBoth).2 (by decide)
  have h0r := h0.2.2.2 (by decide)
  exact ⟨⟨h0.1, h0.2.1, h0r.1, h0r.2⟩,
         ⟨h1.1, h1.2.1, h1.2.2.1 (by decide), h1.2.2.2.2 rpcB (by decide)⟩⟩

/-- Claim C4 (amended): creating a consumer session never fails on track
liveness — the connection is registered in the consumer map regardless;
only tracks that are live at creation time are attached as outbound
tracks, and when the stream exists but has no live track the hub
schedules a bounded wait for liveness instead of erroring. -/
theorem C4_amended_only_live_tracks_attached (c : Nat) (s : GW)
    (hw : s.wrtcLoaded = true) (hc : c ∈ s.connections) :
    ∃ pcNew,
      getPC (createReceiverConnection c s).1.receiverPCs c = some pcNew ∧
      pcNew.pcId = s.nextId ∧
      pcNew.outTracks = (streamTracks s.receivedStream).filter isLive ∧
      (∀ t, t ∈ pcNew.outTracks → t.readyState = ReadyState.live) ∧
      (s.receivedStream.isSome = true →
        (streamTracks s.receivedStream).filter isLive = [] →
        Ev.scheduledTrackWait c ∈ (createReceiverConnection c s).2) := by
  have hw2 : ¬ (s.wrtcLoaded = false) := by simp [hw]
  refine ⟨{ pcId := s.nextId, hasRemoteDesc := false, applied := [],
            outTracks := (streamTracks s.receivedStream).filter isLive,
            recvTracks := [] }, ?_, rfl, rfl, ?_, ?_⟩
  · simp [createReceiverConnection, hw2, hc, getPC_setPC_same]
  · intro t ht
    rw [List.mem_filter] at ht
    simpa [isLive] using ht.2
  · intro hsome hempty
    cases hg : getPC s.receiverPCs c with
    | none => simp [createReceiverConnection, hw2, hc, hg, hsome, hempty]
    | some old => simp [createReceiverConnection, hw2, hc, hg, hsome, hempty]

/-- Witness for C4: the ended-track state `stEnded` yields a registered
session with no outbound tracks and a scheduled liveness wait. -/
theorem C4_witness :
    ∃ pcNew,
      getPC (createReceiverConnection 1 stEnded).1.receiverPCs 1 = some pcNew ∧
      pcNew.pcId = stEnded.nextId ∧
      pcNew.outTracks = (streamTracks stEnded.receivedStream).filter isLive ∧
      (∀ t, t ∈ pcNew.outTracks → t.readyState = ReadyState.live) ∧
      (stEnded.receivedStream.isSome = true →
        (streamTracks stEnded.receivedStream).filter isLive = [] →
        Ev.scheduledTrackWait 1 ∈ (createReceiverConnection 1 stEnded).2) :=
  C4_amended_only_live_tracks_attached 1 stEnded rfl (by decide)

/-- Claim C5 (amended): a candidate is applied to a connection only
after that connection's remote description has been set; but the hub
keeps no queue — a candidate it cannot route to a connection with a set
remote description is dropped with a warning, the hub state unchanged.
Retention of early candidates happens only in the frontend client, which
appends them to its queue. -/
theorem C5_amended_candidate_application :
    (∀ (c cand : Nat) (s : GW) (pc pc2 : PC),
       s.senderPC = some pc →
       (handleIceCandidate c cand s).1.senderPC = some pc2 →
       pc2.applied ≠ pc.applied → pc.hasRemoteDesc = true) ∧
    (∀ (c cand d : Nat) (s : GW) (rpc rpc2 : PC),
       getPC s.receiverPCs d = some rpc →
       getPC (handleIceCandidate c cand s).1.receiverPCs d = some rpc2 →
       rpc2.applied ≠ rpc.applied → rpc.hasRemoteDesc = true) ∧
    (∀ (c cand : Nat) (s : GW),
       s.wrtcLoaded = true →
       (∀ pc, s.senderPC = some pc → pc.hasRemoteDesc = false) →
       (∀ rpc, getPC s.receiverPCs c = some rpc → rpc.hasRemoteDesc = false) →
       (handleIceCandidate c cand s).1 = s ∧
       (handleIceCandidate c cand s).2 = [Ev.warnUnroutedCandidate c]) ∧
    (∀ (fails : Nat → Bool) (st : WebRtcClient.CState) (cand : Nat)
        (pc : WebRtcClient.CPC),
       st.pc = some pc → pc.closed = false → pc.hasRemoteDesc = false →
       WebRtcClient.clientHandleIceCandidate fails st cand
         = { st with queue := st.queue ++ [cand] }) := by
  refine ⟨?_, ?_, ?_, ?_⟩
  · intro c cand s pc pc2 hpc hpc2 hne
    by_cases hw : s.wrtcLoaded = false
    · simp [handleIceCandidate, hw, hpc] at hpc2
      rw [← hpc2] at hne
      exact absurd rfl hne
    · by_cases hrd : pc.hasRemoteDesc
      · exact hrd
      · exfalso
        cases hgc : getPC s.receiverPCs c with
        | none =>
            simp [handleIceCandidate, hw, hpc, hrd, hgc] at hpc2
            rw [← hpc2] at hne
            exact hne rfl
        | some rpcc =>
            by_cases hcd : rpcc.hasRemoteDesc
            · simp [handleIceCandidate, hw, hpc, hrd, hgc, hcd] at hpc2
              rw [← hpc2] at hne
              exact hne rfl
            · simp [handleIceCandidate, hw, hpc, hrd, hgc, hcd] at hpc2
              rw [← hpc2] at hne
              exact hne rfl
  · intro c cand d s rpc rpc2 hget hget2 hne
    by_cases hw : s.wrtcLoaded = false
    · simp [handleIceCandidate, hw] at hget2
      rw [hget] at hget2
      rw [← Option.some.inj hget2] at hne
      exact absurd rfl hne
    · have hmain :
          ∀ (rpcc : PC), getPC s.receiverPCs c = some rpcc →
            rpcc.hasRemoteDesc = true →
            getPC (handleIceCandidate c cand s).1.receiverPCs d
              = getPC (setPC s.receiverPCs c
                  { rpcc with applied := rpcc.applied ++ [cand] }) d →
            rpc.hasRemoteDesc = true := by
        intro rpcc hgc hcd hmap
        by_cases hdc : d = c
        · subst hdc
          rw [hget] at hgc
          have h1 : rpc = rpcc := Option.some.inj hgc
          subst h1
          exact hcd
        · rw [hmap, getPC_setPC_other _ _ _ _ hdc, hget] at hget2
          rw [← Option.some.inj hget2] at hne
          exact absurd rfl hne
      cases hpc : s.senderPC with
      | some pc =>
          by_cases hrd : pc.hasRemoteDesc
          · exfalso
            have : (handleIceCandidate c cand s).1.receiverPCs = s.receiverPCs := by
              simp [handleIceCandidate, hw, hpc, hrd]
            rw [this, hget] at hget2
            rw [← Option.some.inj hget2] at hne
            exact hne rfl
          · cases hgc : getPC s.receiverPCs c with
            | none =>
                exfalso
                have : (handleIceCandidate c cand s).1 = s := by
                  simp [handleIceCandidate, hw, hpc, hrd, hgc]
                rw [this, hget] at hget2
                rw [← Option.some.inj hget2] at hne
                exact hne rfl
            | some rpcc =>
                by_cases hcd : rpcc.hasRemoteDesc
                · refine hmain rpcc hgc hcd ?_
                  simp [handleIceCandidate, hw, hpc, hrd, hgc, hcd]
                · exfalso
                  have : (handleIceCandidate c cand s).1 = s := by
                    simp [handleIceCandidate, hw, hpc, hrd, hgc, hcd]
                  rw [this, hget] at hget2
                  rw [← Option.some.inj hget2] at hne
                  exact hne rfl
      | none =>
          cases hgc : getPC s.receiverPCs c with
          | none =>
              exfalso
              have : (handleIceCandidate c cand s).1 = s := by
                simp [handleIceCandidate, hw, hpc, hgc]
              rw [this, hget] at hget2
              rw [← Option.some.inj hget2] at hne
              exact hne rfl
          | some rpcc =>
              by_cases hcd : rpcc.hasRemoteDesc
              · refine hmain rpcc hgc hcd ?_
                simp [handleIceCandidate, hw, hpc, hgc, hcd]
              · exfalso
                have : (handleIceCandidate c cand s).1 = s := by
                  simp [handleIceCandidate, hw, hpc, hgc, hcd]
                rw [this, hget] at hget2
                rw [← Option.some.inj hget2] at hne
                exact hne rfl
  · intro c cand s hw hsnone hrnone
    have hw2 : ¬ (s.wrtcLoaded = false) := by simp [hw]
    cases hpc : s.senderPC with
    | some pc =>
        have hrd : pc.hasRemoteDesc = false := hsnone pc hpc
        cases hgc : getPC s.receiverPCs c with
        | none => simp [handleIceCandidate, hw2, hpc, hrd, hgc]
        | some rpcc =>
            have hcd : rpcc.hasRemoteDesc = false := hrnone rpcc hgc
            simp [handleIceCandidate, hw2, hpc, hrd, hgc, hcd]
    | none =>
        cases hgc : getPC s.receiverPCs c with
        | none => simp [handleIceCandidate, hw2, hpc, hgc]
        | some rpcc =>
            have hcd : rpcc.hasRemoteDesc = false := hrnone rpcc hgc
            simp [handleIceCandidate, hw2, hpc, hgc, hcd]
  · intro fails st cand pc hpc hcl hrd
    simp [WebRtcClient.clientHandleIceCandidate, hpc, hcl, hrd]

/-- Witness for C5: the producer connection of `stMisroute` had its
remote description set when a candidate was applied to it, and the
frontend client queues a candidate arriving before its remote
description is set. -/
theorem C5_witness :
    pcA.hasRemoteDesc = true ∧
    WebRtcClient.clientHandleIceCandidate (fun _ => false)
        { pc := some { closed := false, hasRemoteDesc := false, applied := [] },
          queue := [3] } 9
      = { pc := some { closed := false, hasRemoteDesc := false, applied := [] },
          queue := [3, 9] } :=
  ⟨C5_amended_candidate_application.1 1 99 stMisroute pcA
      { pcId := 10, hasRemoteDesc := true, applied := [99], outTracks := [],
        recvTracks := [] } rfl (by decide) (by decide),
   C5_amended_candidate_application.2.2.2 (fun _ => false)
      { pc := some { closed := false, hasRemoteDesc := false, applied := [] },
        queue := [3] } 9
      { closed := false, hasRemoteDesc := false, applied := [] } rfl rfl rfl⟩

/-- Every track the live-video filter keeps is a live video track. -/
theorem mem_liveVideos (ts : List Track) (t : Track) (h : t ∈ liveVideos ts) :
    t.kind = TrackKind.video ∧ t.readyState = ReadyState.live := by
  induction ts with
  | nil => simp [liveVideos] at h
  | cons a rest ih =>
      by_cases ha : a.kind = TrackKind.video ∧ a.readyState = ReadyState.live
      · rw [liveVideos, if_pos ha] at h
        rcases List.mem_cons.mp h with h1 | h2
        · rw [h1]
          exact ha
        · exact ih h2
      · rw [liveVideos, if_neg ha] at h
        exact ih h

/-- A head of a list is a member. -/
theorem headMem {α : Type} (l : List α) (a : α) (h : l.head? = some a) :
    a ∈ l := by
  cases l with
  | nil => simp at h
  | cons x rest =>
      simp at h
      rw [h]
      exact List.mem_cons_self a rest

/-- The different-id preference returns a member of its input. -/
theorem findOtherId_mem (i : Nat) (l : List Track) (t : Track)
    (h : findOtherId i l = some t) : t ∈ l := by
  induction l with
  | nil => simp [findOtherId] at h
  | cons a rest ih =>
      by_cases ha : a.id ≠ i
      · rw [findOtherId, if_pos ha] at h
        rw [← Option.some.inj h]
        exact List.mem_cons_self a rest
      · rw [findOtherId, if_neg ha] at h
        exact List.mem_cons_of_mem a (ih h)

/-- The promotion choice returns a member of the live-video list. -/
theorem promoteChoice_mem (cur : Track) (lv : List Track) (t : Track)
    (h : promoteChoice cur lv = some t) : t ∈ lv := by
  unfold promoteChoice at h
  cases hf : findOtherId cur.id lv with
  | some u =>
      rw [hf] at h
      rw [← Option.some.inj h]
      exact findOtherId_mem _ _ _ hf
  | none =>
      rw [hf] at h
      exact headMem _ _ h

/-- A successful poll returns a track found live in one of the first
`fuel` snapshots from `tick` on. -/
theorem pollForLive_some (snaps : Nat → List Track) (tick fuel : Nat)
    (t : Track) (h : pollForLive snaps tick fuel = some t) :
    ∃ i, tick ≤ i ∧ i < tick + fuel ∧ t ∈ liveVideos (snaps i) := by
  induction fuel generalizing tick with
  | zero => simp [pollForLive] at h
  | succ n ih =>
      rw [pollForLive] at h
      cases hf : firstLiveVideo (snaps tick) with
      | some u =>
          rw [hf] at h
          refine ⟨tick, le_refl _, by omega, ?_⟩
          rw [← Option.some.inj h]
          exact headMem _ _ hf
      | none =>
          rw [hf] at h
          obtain ⟨i, h1, h2, h3⟩ := ih (tick + 1) h
          exact ⟨i, by omega, by omega, h3⟩

/-- Polling snapshots with no live video track for the whole window
comes back empty. -/
theorem pollForLive_none (snaps : Nat → List Track) (tick fuel : Nat)
    (h : ∀ i, tick ≤ i → i < tick + fuel → liveVideos (snaps i) = []) :
    pollForLive snaps tick fuel = none := by
  induction fuel generalizing tick with
  | zero => rfl
  | succ n ih =>
      rw [pollForLive]
      have h0 : liveVideos (snaps tick) = [] := h tick (le_refl _) (by omega)
      have hf : firstLiveVideo (snaps tick) = none := by
        rw [firstLiveVideo, h0]
        rfl
      rw [hf]
      exact ih (tick + 1) (fun i h1 h2 => h i (by omega) (by omega))

/-- The poll reads only the snapshots inside its window. -/
theorem pollForLive_congr (snaps snaps2 : Nat → List Track) (tick fuel : Nat)
    (h : ∀ i, tick ≤ i → i < tick + fuel → snaps i = snaps2 i) :
    pollForLive snaps tick fuel = pollForLive snaps2 tick fuel := by
  induction fuel generalizing tick with
  | zero => rfl
  | succ n ih =>
      rw [pollForLive, pollForLive]
      rw [h tick (le_refl _) (by omega)]
      cases hf : firstLiveVideo (snaps2 tick) with
      | some u => rfl
      | none => exact ih (tick + 1) (fun i h1 h2 => h i (by omega) (by omega))

/-- Claim C6: when the current track ends, the monitor promotes a live
video track from the producer's receivers if one appears within the
bounded window (the promoted track is live and of kind video and becomes
the received stream); if no live video track appears in the immediate
scan or any of the 50 re-poll attempts, the received stream is cleared;
and the whole search is a function of at most the 51 snapshots of the
window — it reads nothing beyond the bound, so it cannot poll forever. -/
theorem C6_bounded_replacement_search (cur : Track) (snaps : Nat → List Track) :
    (∀ t, endedBranchResult cur snaps = some t →
       t.kind = TrackKind.video ∧ t.readyState = ReadyState.live ∧
       endedBranchStream cur snaps = some (WebRtcHub.Stream.mk [t])) ∧
    ((∀ i, i ≤ 50 → liveVideos (snaps i) = []) →
       endedBranchStream cur snaps = none) ∧
    (∀ snaps2, (∀ i, i ≤ 50 → snaps i = snaps2 i) →
       endedBranchResult cur snaps = endedBranchResult cur snaps2) := by
  refine ⟨?_, ?_, ?_⟩
  · intro t h
    have hstream : endedBranchStream cur snaps = some (WebRtcHub.Stream.mk [t]) := by
      rw [endedBranchStream, h]
    have hmem : t.kind = TrackKind.video ∧ t.readyState = ReadyState.live := by
      rw [endedBranchResult] at h
      cases hp : promoteChoice cur (liveVideos (snaps 0)) with
      | some u =>
          rw [hp] at h
          have := promoteChoice_mem _ _ _ hp
          rw [← Option.some.inj h]
          exact mem_liveVideos _ _ this
      | none =>
          rw [hp] at h
          obtain ⟨i, _, _, h3⟩ := pollForLive_some snaps 1 50 t h
          exact mem_liveVideos _ _ h3
    exact ⟨hmem.1, hmem.2, hstream⟩
  · intro h
    have h0 : liveVideos (snaps 0) = [] := h 0 (by omega)
    have hp : promoteChoice cur (liveVideos (snaps 0)) = none := by
      rw [promoteChoice, h0]
      rfl
    have hpoll : pollForLive snaps 1 50 = none :=
      pollForLive_none snaps 1 50 (fun i h1 h2 => h i (by omega))
    rw [endedBranchStream, endedBranchResult, hp, hpoll]
  · intro snaps2 h
    rw [endedBranchResult, endedBranchResult, h 0 (by omega)]
    rw [pollForLive_congr snaps snaps2 1 50 (fun i h1 h2 => h i (by omega))]

/-- Witness for C6: a live track appearing at the third re-poll is
promoted (it is a live video track and becomes the stream), and
constantly empty receivers clear the stream. -/
theorem C6_witness :
    (liveTrack.kind = TrackKind.video ∧
     liveTrack.readyState = ReadyState.live ∧
     endedBranchStream endedTrack (fun i => if i = 3 then [liveTrack] else [])
       = some (WebRtcHub.Stream.mk [liveTrack])) ∧
    endedBranchStream endedTrack (fun _ => []) = none :=
  ⟨(C6_bounded_replacement_search endedTrack
      (fun i => if i = 3 then [liveTrack] else [])).1 liveTrack (by decide),
   (C6_bounded_replacement_search endedTrack (fun _ => [])).2.1
      (fun i hi => rfl)⟩

/-- A producer-neutral event leaves the open-producer accounting alone. -/
theorem openProdStep_neutral (e : Ev) (acc : List Nat)
    (h : prodNeutral e = true) : openProdStep acc e = acc := by
  cases e <;> first
    | rfl
    | simp [prodNeutral] at h

/-- A producer-neutral event list leaves the open-producer accounting
alone. -/
theorem foldl_openProd_neutral (evs : List Ev) (acc : List Nat)
    (h : evs.all prodNeutral = true) : evs.foldl openProdStep acc = acc := by
  induction evs generalizing acc with
  | nil => rfl
  | cons e rest ih =>
      rw [List.all_cons, Bool.and_eq_true] at h
      rw [List.foldl_cons, openProdStep_neutral e acc h.1]
      exact ih acc h.2

/-- States with the same producer slot have the same producer ids. -/
theorem prodIds_eq_of_senderPC (s1 s2 : GW) (h : s1.senderPC = s2.senderPC) :
    prodIds s1 = prodIds s2 := by
  unfold prodIds
  rw [h]

theorem handleConnectionAccept_frame (c : Nat) (s : GW) :
    (handleConnectionAccept c s).1.senderPC = s.senderPC ∧
    (handleConnectionAccept c s).2.all prodNeutral = true := by
  simp [handleConnectionAccept, prodNeutral]

theorem handleConnection_frame (c : Nat) (s : GW) :
    (handleConnection c s).1.senderPC = s.senderPC ∧
    (handleConnection c s).2.all prodNeutral = true := by
  by_cases h : s.receivedStream.isSome = true <;>
    simp [handleConnection, handleConnectionAccept, prodNeutral, h]

theorem createReceiverConnection_frame (c : Nat) (s : GW) :
    (createReceiverConnection c s).1.senderPC = s.senderPC ∧
    (createReceiverConnection c s).2.all prodNeutral = true := by
  by_cases hw : s.wrtcLoaded = false
  · simp [createReceiverConnection, hw, prodNeutral]
  · by_cases hc : c ∈ s.connections
    · cases hg : getPC s.receiverPCs c <;>
        by_cases hwait : (s.receivedStream.isSome ∧
            (streamTracks s.receivedStream).filter isLive = []) <;>
          simp [createReceiverConnection, hw, hc, hg, hwait, prodNeutral] <;>
          (intro x h1 h2 hx; subst hx; rfl)
    · simp [createReceiverConnection, hw, hc, prodNeutral]

theorem createPendingReceivers_frame (sid : Nat) (cs : List Nat) (s : GW) :
    (createPendingReceivers sid cs s).1.senderPC = s.senderPC ∧
    (createPendingReceivers sid cs s).2.all prodNeutral = true := by
  induction cs generalizing s with
  | nil => simp [createPendingReceivers]
  | cons c rest ih =>
      by_cases hcond : getPC s.receiverPCs c = none ∧ c ≠ sid
      · have h1 := createReceiverConnection_frame c s
        have h2 := ih (createReceiverConnection c s).1
        rw [createPendingReceivers, if_pos hcond]
        refine ⟨?_, ?_⟩
        · show (createPendingReceivers sid rest
              (createReceiverConnection c s).1).1.senderPC = s.senderPC
          rw [h2.1, h1.1]
        · show ((createReceiverConnection c s).2
              ++ (createPendingReceivers sid rest
                    (createReceiverConnection c s).1).2).all prodNeutral = true
          rw [List.all_append, h1.2, h2.2]
          rfl
      · rw [createPendingReceivers, if_neg hcond]
        exact ih s

theorem processLiveTrack_frame (t : Track) (streams : List Stream) (sid : Nat)
    (s : GW) :
    (processLiveTrack t streams sid s).1.senderPC = s.senderPC ∧
    (processLiveTrack t streams sid s).2.all prodNeutral = true := by
  unfold processLiveTrack
  cases streams with
  | nil =>
      exact createPendingReceivers_frame sid s.connections
        { s with receivedStream := some (WebRtcHub.Stream.mk [t]) }
  | cons st rest =>
      exact createPendingReceivers_frame sid s.connections
        { s with receivedStream := some st }

theorem handleTrackReceived_frame (t : Track) (streams : List Stream)
    (sid : Nat) (s : GW) :
    (handleTrackReceived t streams sid s).1.senderPC = s.senderPC ∧
    (handleTrackReceived t streams sid s).2.all prodNeutral = true := by
  by_cases hl : t.readyState = ReadyState.live
  · rw [handleTrackReceived, if_pos hl]
    exact processLiveTrack_frame t streams sid s
  · rw [handleTrackReceived, if_neg hl]
    simp [prodNeutral]

theorem ontrackHandler_frame (t : Track) (streams : List Stream)
    (sid : Nat) (s : GW) :
    (ontrackHandler t streams sid s).1.senderPC = s.senderPC ∧
    (ontrackHandler t streams sid s).2.all prodNeutral = true := by
  by_cases hl : t.readyState = ReadyState.live
  · rw [ontrackHandler, if_pos hl]
    exact processLiveTrack_frame t streams sid s
  · rw [ontrackHandler, if_neg hl]
    simp [prodNeutral]

theorem handleAnswer_frame (c : Nat) (s : GW) :
    (handleAnswer c s).1.senderPC = s.senderPC ∧
    (handleAnswer c s).2.all prodNeutral = true := by
  cases hg : getPC s.receiverPCs c with
  | some rpc =>
      by_cases hw : s.wrtcLoaded = false <;>
        simp [handleAnswer, hg, hw, prodNeutral]
  | none => simp [handleAnswer, hg, prodNeutral]

theorem handleIceCandidate_prod (c cand : Nat) (s : GW) :
    prodIds (handleIceCandidate c cand s).1 = prodIds s ∧
    (handleIceCandidate c cand s).2.all prodNeutral = true := by
  by_cases hw : s.wrtcLoaded = false
  · simp [handleIceCandidate, hw, prodNeutral]
  · cases hpc : s.senderPC with
    | some pc =>
        by_cases hrd : pc.hasRemoteDesc
        · simp [handleIceCandidate, hw, hpc, hrd, prodNeutral, prodIds]
        · cases hg : getPC s.receiverPCs c with
          | some rpc =>
              by_cases hcd : rpc.hasRemoteDesc <;>
                simp [handleIceCandidate, hw, hpc, hrd, hg, hcd, prodNeutral,
                      prodIds]
          | none =>
              simp [handleIceCandidate, hw, hpc, hrd, hg, prodNeutral, prodIds]
    | none =>
        cases hg : getPC s.receiverPCs c with
        | some rpc =>
            by_cases hcd : rpc.hasRemoteDesc <;>
              simp [handleIceCandidate, hw, hpc, hg, hcd, prodNeutral, prodIds]
        | none =>
            simp [handleIceCandidate, hw, hpc, hg, prodNeutral, prodIds]

/-- Closing the only open producer connection empties the accounting. -/
theorem foldl_closed_self (i : Nat) (rest : List Ev) :
    (Ev.producerClosed i :: rest).foldl openProdStep [i]
      = rest.foldl openProdStep [] := by
  rw [List.foldl_cons]
  have h : openProdStep [i] (Ev.producerClosed i) = [] := by
    simp [openProdStep]
  rw [h]

/-- Creating a producer connection followed by neutral events leaves
exactly that connection open. -/
theorem foldl_created_neutral (j : Nat) (rest : List Ev)
    (h : rest.all prodNeutral = true) :
    (Ev.producerCreated j :: rest).foldl openProdStep []
      = [j] := by
  rw [List.foldl_cons]
  have h0 : openProdStep [] (Ev.producerCreated j) = [j] := rfl
  rw [h0]
  exact foldl_openProd_neutral rest [j] h

/-- `handleDisconnect` keeps the trace accounting of open producer
connections in step with the state. -/
theorem handleDisconnect_prod (c : Nat) (s : GW) :
    (handleDisconnect c s).2.foldl openProdStep (prodIds s)
      = prodIds (handleDisconnect c s).1 := by
  by_cases hsc : s.senderClientId = some c
  · cases hpc : s.senderPC with
    | some pc =>
        cases hg : getPC s.receiverPCs c with
        | some rpc =>
            simp [handleDisconnect, hsc, hpc, hg, prodIds, openProdStep]
        | none =>
            simp [handleDisconnect, hsc, hpc, hg, prodIds, openProdStep]
    | none =>
        cases hg : getPC s.receiverPCs c with
        | some rpc =>
            simp [handleDisconnect, hsc, hpc, hg, prodIds, openProdStep]
        | none =>
            simp [handleDisconnect, hsc, hpc, hg, prodIds]
  · cases hg : getPC s.receiverPCs c with
    | some rpc =>
        simp [handleDisconnect, hsc, hg, prodIds, openProdStep]
    | none =>
        simp [handleDisconnect, hsc, hg, prodIds]

theorem handleTrackReceived_senderPC (t : Track) (streams : List Stream)
    (sid : Nat) (s : GW) :
    (handleTrackReceived t streams sid s).1.senderPC = s.senderPC :=
  (handleTrackReceived_frame t streams sid s).1

theorem handleTrackReceived_all (t : Track) (streams : List Stream)
    (sid : Nat) (s : GW) :
    (handleTrackReceived t streams sid s).2.all prodNeutral = true :=
  (handleTrackReceived_frame t streams sid s).2

/-- `handleOffer` keeps the trace accounting of open producer
connections in step with the state. -/
theorem handleOffer_prod (c : Nat) (tracks : List Track) (s : GW) :
    (handleOffer c tracks s).2.foldl openProdStep (prodIds s)
      = prodIds (handleOffer c tracks s).1 := by
  by_cases hw : s.wrtcLoaded = false
  · simp [handleOffer, hw, prodIds, openProdStep]
  · cases hlv : (tracks.filter (fun t => t.kind = TrackKind.video)).filter isLive with
    | nil =>
        cases hpc : s.senderPC with
        | some old =>
            simp [handleOffer, hw, hpc, hlv, prodIds, openProdStep]
        | none =>
            simp [handleOffer, hw, hpc, hlv, prodIds, openProdStep]
    | cons t ts =>
        cases hpc : s.senderPC with
        | some old =>
            simp [handleOffer, hw, hpc, hlv, prodIds, openProdStep,
                  List.foldl_append, List.all_append,
                  handleTrackReceived_senderPC, handleTrackReceived_all,
                  foldl_openProd_neutral]
        | none =>
            simp [handleOffer, hw, hpc, hlv, prodIds, openProdStep,
                  List.foldl_append, List.all_append,
                  handleTrackReceived_senderPC, handleTrackReceived_all,
                  foldl_openProd_neutral]

theorem ontrackHandler_senderPC (t : Track) (streams : List Stream)
    (sid : Nat) (s : GW) :
    (ontrackHandler t streams sid s).1.senderPC = s.senderPC :=
  (ontrackHandler_frame t streams sid s).1

theorem ontrackHandler_all (t : Track) (streams : List Stream)
    (sid : Nat) (s : GW) :
    (ontrackHandler t streams sid s).2.all prodNeutral = true :=
  (ontrackHandler_frame t streams sid s).2

/-- Every gateway reaction keeps the trace accounting of open producer
connections in step with the state's producer slot. -/
theorem stepGW_prod (m : Msg) (s : GW) :
    (stepGW m s).2.foldl openProdStep (prodIds s) = prodIds (stepGW m s).1 := by
  cases m with
  | connect c =>
      have h := handleConnection_frame c s
      calc (stepGW (Msg.connect c) s).2.foldl openProdStep (prodIds s)
          = prodIds s := foldl_openProd_neutral _ _ h.2
        _ = prodIds (stepGW (Msg.connect c) s).1 :=
            prodIds_eq_of_senderPC _ _ h.1.symm
  | disconnect c => exact handleDisconnect_prod c s
  | connectionAccept c =>
      have h := handleConnectionAccept_frame c s
      calc (stepGW (Msg.connectionAccept c) s).2.foldl openProdStep (prodIds s)
          = prodIds s := foldl_openProd_neutral _ _ h.2
        _ = prodIds (stepGW (Msg.connectionAccept c) s).1 :=
            prodIds_eq_of_senderPC _ _ h.1.symm
  | connectionReject c => exact handleDisconnect_prod c s
  | offer c tracks => exact handleOffer_prod c tracks s
  | answer c =>
      have h := handleAnswer_frame c s
      calc (stepGW (Msg.answer c) s).2.foldl openProdStep (prodIds s)
          = prodIds s := foldl_openProd_neutral _ _ h.2
        _ = prodIds (stepGW (Msg.answer c) s).1 :=
            prodIds_eq_of_senderPC _ _ h.1.symm
  | candidate c cand =>
      have h := handleIceCandidate_prod c cand s
      calc (stepGW (Msg.candidate c cand) s).2.foldl openProdStep (prodIds s)
          = prodIds s := foldl_openProd_neutral _ _ h.2
        _ = prodIds (stepGW (Msg.candidate c cand) s).1 := h.1.symm
  | receiverConnTimer c =>
      have h := createReceiverConnection_frame c s
      calc (stepGW (Msg.receiverConnTimer c) s).2.foldl openProdStep (prodIds s)
          = prodIds s := foldl_openProd_neutral _ _ h.2
        _ = prodIds (stepGW (Msg.receiverConnTimer c) s).1 :=
            prodIds_eq_of_senderPC _ _ h.1.symm
  | ontrackEv t streams =>
      cases hpc : s.senderPC with
      | none => simp [stepGW, hpc]
      | some pc =>
          cases hsid : s.senderClientId with
          | none => simp [stepGW, hpc, hsid]
          | some sid =>
              simp [stepGW, hpc, hsid, prodIds, ontrackHandler_senderPC,
                    ontrackHandler_all, foldl_openProd_neutral]
  | monitorUpdate r =>
      cases hpc : s.senderPC with
      | none => simp [stepGW, hpc]
      | some pc =>
          cases r with
          | none => simp [stepGW, hpc, prodIds]
          | some t =>
              by_cases hl : t.readyState = ReadyState.live <;>
                simp [stepGW, hpc, hl, prodIds]
  | senderConnFailed =>
      cases hpc : s.senderPC with
      | none => simp [stepGW, hpc]
      | some pc => simp [stepGW, hpc, prodIds]
  | receiverConnFailed c => simp [stepGW, prodIds]

/-- A whole run keeps the trace accounting of open producer connections
in step with the state's producer slot. -/
theorem runGW_prod (msgs : List Msg) (s : GW) :
    (runGW s msgs).2.foldl openProdStep (prodIds s)
      = prodIds (runGW s msgs).1 := by
  induction msgs generalizing s with
  | nil => rfl
  | cons m ms ih =>
      show ((stepGW m s).2 ++ (runGW (stepGW m s).1 ms).2).foldl openProdStep
          (prodIds s) = prodIds (runGW (stepGW m s).1 ms).1
      rw [List.foldl_append, stepGW_prod]
      exact ih (stepGW m s).1

/-- Claim C1: along every message sequence processed by the hub from
startup, the trace of producer connections created and closed leaves at
most one producer connection open at every end state; and a producer
offer arriving while a producer connection is active emits the close of
the existing connection strictly before the creation of the new one. -/
theorem C1_single_producer :
    (∀ (b : Bool) (msgs : List Msg),
       (openProd (runGW (initGW b) msgs).2).length ≤ 1) ∧
    (∀ (c : Nat) (tracks : List Track) (s : GW) (old : PC),
       s.wrtcLoaded = true → s.senderPC = some old →
       ∃ rest, (handleOffer c tracks s).2
         = Ev.producerClosed old.pcId :: Ev.producerCreated s.nextId :: rest) := by
  constructor
  · intro b msgs
    have h := runGW_prod msgs (initGW b)
    have h0 : prodIds (initGW b) = [] := rfl
    rw [openProd, ← h0, h]
    unfold prodIds
    cases (runGW (initGW b) msgs).1.senderPC <;> simp
  · intro c tracks s old hw hpc
    have hw2 : ¬ (s.wrtcLoaded = false) := by simp [hw]
    cases hlv : (tracks.filter (fun t => t.kind = TrackKind.video)).filter isLive with
    | nil =>
        refine ⟨[Ev.emitAnswer c], ?_⟩
        simp [handleOffer, hw2, hpc, hlv]
    | cons t ts =>
        refine ⟨((handleOffer c tracks s).2).drop 2, ?_⟩
        simp [handleOffer, hw2, hpc, hlv]

/-- Witness for C1: two successive producer offers from startup, and the
offer of client 2 arriving at `stProd`, whose producer connection 10 is
closed before connection 12 is created. -/
theorem C1_witness :
    (openProd (runGW (initGW true) [Msg.offer 1 [], Msg.offer 2 []]).2).length
      ≤ 1 ∧
    (∃ rest, (handleOffer 2 [] stProd).2
       = Ev.producerClosed pcA.pcId :: Ev.producerCreated stProd.nextId :: rest) :=
  ⟨C1_single_producer.1 true [Msg.offer 1 [], Msg.offer 2 []],
   C1_single_producer.2 2 [] stProd pcA rfl rfl⟩

/-- Overwriting one key of a per-client map keeps every key at one entry
at most. -/
theorem countKeys_setPC (l : List (Nat × PC)) (c : Nat) (v : PC)
    (h : ∀ k, countKey l k ≤ 1) : ∀ k, countKey (setPC l c v) k ≤ 1 := by
  intro k
  by_cases hkc : k = c
  · subst hkc
    exact countKey_setPC_same _ _ _ (h k)
  · rw [countKey_setPC_other _ _ _ _ hkc]
    exact h k

/-- Deleting a key of a per-client map keeps every key at one entry at
most. -/
theorem countKeys_delPC (l : List (Nat × PC)) (c : Nat)
    (h : ∀ k, countKey l k ≤ 1) : ∀ k, countKey (delPC l c) k ≤ 1 :=
  fun k => le_trans (countKey_delPC_le l c k) (h k)

theorem createReceiverConnection_receiverPCs (c : Nat) (s : GW) :
    (createReceiverConnection c s).1.receiverPCs = s.receiverPCs ∨
    ∃ v, (createReceiverConnection c s).1.receiverPCs
      = setPC s.receiverPCs c v := by
  by_cases hw : s.wrtcLoaded = false
  · left
    simp [createReceiverConnection, hw]
  · by_cases hc : c ∈ s.connections
    · right
      refine ⟨PC.mk s.nextId false []
        ((streamTracks s.receivedStream).filter isLive) [], ?_⟩
      simp [createReceiverConnection, hw, hc]
    · left
      simp [createReceiverConnection, hw, hc]

theorem createReceiverConnection_RPok (c : Nat) (s : GW) (h : RPok s) :
    RPok (createReceiverConnection c s).1 := by
  rcases createReceiverConnection_receiverPCs c s with heq | ⟨v, heq⟩
  · intro k
    rw [heq]
    exact h k
  · intro k
    rw [heq]
    exact countKeys_setPC s.receiverPCs c v h k

theorem createPendingReceivers_RPok (sid : Nat) (cs : List Nat) (s : GW)
    (h : RPok s) : RPok (createPendingReceivers sid cs s).1 := by
  induction cs generalizing s with
  | nil => exact h
  | cons c rest ih =>
      by_cases hcond : getPC s.receiverPCs c = none ∧ c ≠ sid
      · rw [createPendingReceivers, if_pos hcond]
        exact ih (createReceiverConnection c s).1
          (createReceiverConnection_RPok c s h)
      · rw [createPendingReceivers, if_neg hcond]
        exact ih s h

theorem processLiveTrack_RPok (t : Track) (streams : List Stream) (sid : Nat)
    (s : GW) (h : RPok s) : RPok (processLiveTrack t streams sid s).1 := by
  unfold processLiveTrack
  cases streams with
  | nil => exact createPendingReceivers_RPok sid s.connections _ h
  | cons st rest => exact createPendingReceivers_RPok sid s.connections _ h

theorem handleTrackReceived_RPok (t : Track) (streams : List Stream)
    (sid : Nat) (s : GW) (h : RPok s) :
    RPok (handleTrackReceived t streams sid s).1 := by
  by_cases hl : t.readyState = ReadyState.live
  · rw [handleTrackReceived, if_pos hl]
    exact processLiveTrack_RPok t streams sid s h
  · rw [handleTrackReceived, if_neg hl]
    exact h

theorem ontrackHandler_RPok (t : Track) (streams : List Stream)
    (sid : Nat) (s : GW) (h : RPok s) :
    RPok (ontrackHandler t streams sid s).1 := by
  by_cases hl : t.readyState = ReadyState.live
  · rw [ontrackHandler, if_pos hl]
    exact processLiveTrack_RPok t streams sid s h
  · rw [ontrackHandler, if_neg hl]
    exact h

theorem handleConnection_RPok (c : Nat) (s : GW) (h : RPok s) :
    RPok (handleConnection c s).1 := by
  intro k
  by_cases hrs : s.receivedStream.isSome = true
  · simpa [handleConnection, handleConnectionAccept, hrs] using h k
  · simpa [handleConnection, handleConnectionAccept, hrs] using h k

theorem handleDisconnect_receiverPCs (c : Nat) (s : GW) :
    (handleDisconnect c s).1.receiverPCs = s.receiverPCs ∨
    (handleDisconnect c s).1.receiverPCs = delPC s.receiverPCs c := by
  by_cases hsc : s.senderClientId = some c
  · cases hpc : s.senderPC with
    | some pc =>
        cases hg : getPC s.receiverPCs c with
        | some rpc =>
            right
            simp [handleDisconnect, hsc, hpc, hg]
        | none =>
            left
            simp [handleDisconnect, hsc, hpc, hg]
    | none =>
        cases hg : getPC s.receiverPCs c with
        | some rpc =>
            right
            simp [handleDisconnect, hsc, hpc, hg]
        | none =>
            left
            simp [handleDisconnect, hsc, hpc, hg]
  · cases hg : getPC s.receiverPCs c with
    | some rpc =>
        right
        simp [handleDisconnect, hsc, hg]
    | none =>
        left
        simp [handleDisconnect, hsc, hg]

theorem handleDisconnect_RPok (c : Nat) (s : GW) (h : RPok s) :
    RPok (handleDisconnect c s).1 := by
  rcases handleDisconnect_receiverPCs c s with heq | heq
  · intro k
    rw [heq]
    exact h k
  · intro k
    rw [heq]
    exact countKeys_delPC s.receiverPCs c h k

theorem handleOffer_RPok (c : Nat) (tracks : List Track) (s : GW)
    (h : RPok s) : RPok (handleOffer c tracks s).1 := by
  by_cases hw : s.wrtcLoaded = false
  · intro k
    simpa [handleOffer, hw] using h k
  · cases hlv : (tracks.filter (fun t => t.kind = TrackKind.video)).filter isLive with
    | nil =>
        cases hpc : s.senderPC with
        | some old =>
            intro k
            simpa [handleOffer, hw, hpc, hlv] using h k
        | none =>
            intro k
            simpa [handleOffer, hw, hpc, hlv] using h k
    | cons t ts =>
        cases hpc : s.senderPC with
        | some old =>
            have h2 := handleTrackReceived_RPok t [] c
              (GW.mk s.wrtcLoaded s.connections
                (some (PC.mk s.nextId true [] [] tracks)) (some c)
                s.receiverPCs s.receivedStream (s.nextId + 1)) h
            intro k
            simp only [handleOffer, if_neg hw, hpc, hlv]
            exact h2 k
        | none =>
            have h2 := handleTrackReceived_RPok t [] c
              (GW.mk s.wrtcLoaded s.connections
                (some (PC.mk s.nextId true [] [] tracks)) (some c)
                s.receiverPCs s.receivedStream (s.nextId + 1)) h
            intro k
            simp only [handleOffer, if_neg hw, hpc, hlv]
            exact h2 k

theorem handleAnswer_receiverPCs (c : Nat) (s : GW) :
    (handleAnswer c s).1.receiverPCs = s.receiverPCs ∨
    ∃ v, (handleAnswer c s).1.receiverPCs = setPC s.receiverPCs c v := by
  cases hg : getPC s.receiverPCs c with
  | none =>
      left
      simp [handleAnswer, hg]
  | some rpc =>
      by_cases hw : s.wrtcLoaded = false
      · left
        simp [handleAnswer, hg, hw]
      · right
        refine ⟨PC.mk rpc.pcId true rpc.applied rpc.outTracks rpc.recvTracks, ?_⟩
        simp [handleAnswer, hg, hw]

theorem handleAnswer_RPok (c : Nat) (s : GW) (h : RPok s) :
    RPok (handleAnswer c s).1 := by
  rcases handleAnswer_receiverPCs c s with heq | ⟨v, heq⟩
  · intro k
    rw [heq]
    exact h k
  · intro k
    rw [heq]
    exact countKeys_setPC s.receiverPCs c v h k

theorem handleIceCandidate_receiverPCs (c cand : Nat) (s : GW) :
    (handleIceCandidate c cand s).1.receiverPCs = s.receiverPCs ∨
    ∃ v, (handleIceCandidate c cand s).1.receiverPCs
      = setPC s.receiverPCs c v := by
  by_cases hw : s.wrtcLoaded = false
  · left
    simp [handleIceCandidate, hw]
  · cases hpc : s.senderPC with
    | some pc =>
        by_cases hrd : pc.hasRemoteDesc
        · left
          simp [handleIceCandidate, hw, hpc, hrd]
        · cases hg : getPC s.receiverPCs c with
          | some rpc =>
              by_cases hcd : rpc.hasRemoteDesc
              · right
                refine ⟨PC.mk rpc.pcId rpc.hasRemoteDesc
                  (rpc.applied ++ [cand]) rpc.outTracks rpc.recvTracks, ?_⟩
                simp [handleIceCandidate, hw, hpc, hrd, hg, hcd]
              · left
                simp [handleIceCandidate, hw, hpc, hrd, hg, hcd]
          | none =>
              left
              simp [handleIceCandidate, hw, hpc, hrd, hg]
    | none =>
        cases hg : getPC s.receiverPCs c with
        | some rpc =>
            by_cases hcd : rpc.hasRemoteDesc
            · right
              refine ⟨PC.mk rpc.pcId rpc.hasRemoteDesc
                (rpc.applied ++ [cand]) rpc.outTracks rpc.recvTracks, ?_⟩
              simp [handleIceCandidate, hw, hpc, hg, hcd]
            · left
              simp [handleIceCandidate, hw, hpc, hg, hcd]
        | none =>
            left
            simp [handleIceCandidate, hw, hpc, hg]

theorem handleIceCandidate_RPok (c cand : Nat) (s : GW) (h : RPok s) :
    RPok (handleIceCandidate c cand s).1 := by
  rcases handleIceCandidate_receiverPCs c cand s with heq | ⟨v, heq⟩
  · intro k
    rw [heq]
    exact h k
  · intro k
    rw [heq]
    exact countKeys_setPC s.receiverPCs c v h k

/-- Every gateway reaction keeps the consumer map at one connection per
client at most. -/
theorem stepGW_RPok (m : Msg) (s : GW) (h : RPok s) : RPok (stepGW m s).1 := by
  cases m with
  | connect c => exact handleConnection_RPok c s h
  | disconnect c => exact handleDisconnect_RPok c s h
  | connectionAccept c => exact h
  | connectionReject c => exact handleDisconnect_RPok c s h
  | offer c tracks => exact handleOffer_RPok c tracks s h
  | answer c => exact handleAnswer_RPok c s h
  | candidate c cand => exact handleIceCandidate_RPok c cand s h
  | receiverConnTimer c => exact createReceiverConnection_RPok c s h
  | ontrackEv t streams =>
      cases hpc : s.senderPC with
      | none =>
          intro k
          simpa [stepGW, hpc] using h k
      | some pc =>
          cases hsid : s.senderClientId with
          | none =>
              intro k
              simpa [stepGW, hpc, hsid] using h k
          | some sid =>
              have h2 := ontrackHandler_RPok t streams sid
                (GW.mk s.wrtcLoaded s.connections
                  (some (PC.mk pc.pcId pc.hasRemoteDesc pc.applied pc.outTracks
                    (pc.recvTracks ++ [t]))) (some sid)
                  s.receiverPCs s.receivedStream s.nextId) h
              intro k
              simp only [stepGW, hpc, hsid]
              exact h2 k
  | monitorUpdate r =>
      cases hpc : s.senderPC with
      | none =>
          intro k
          simpa [stepGW, hpc] using h k
      | some pc =>
          cases r with
          | none =>
              intro k
              simpa [stepGW, hpc] using h k
          | some t =>
              by_cases hl : t.readyState = ReadyState.live
              · intro k
                simpa [stepGW, hpc, hl] using h k
              · intro k
                simpa [stepGW, hpc, hl] using h k
  | senderConnFailed =>
      cases hpc : s.senderPC with
      | none =>
          intro k
          simpa [stepGW, hpc] using h k
      | some pc =>
          intro k
          simpa [stepGW, hpc] using h k
  | receiverConnFailed c =>
      intro k
      have heq : (stepGW (Msg.receiverConnFailed c) s).1.receiverPCs
          = delPC s.receiverPCs c := by
        simp [stepGW]
      rw [heq]
      exact countKeys_delPC s.receiverPCs c h k

/-- A whole run keeps the consumer map at one connection per client at
most. -/
theorem runGW_RPok (msgs : List Msg) (s : GW) (h : RPok s) :
    RPok (runGW s msgs).1 := by
  induction msgs generalizing s with
  | nil => exact h
  | cons m ms ih => exact ih (stepGW m s).1 (stepGW_RPok m s h)

/-- Claim C9: along every message sequence from startup the consumer map
holds at most one connection per client id; and creating a consumer
session for a client that already has one emits the close of the
existing connection before the creation of the new one, overwrites the
map entry with the new connection, and leaves every other client's entry
unchanged. -/
theorem C9_one_consumer_connection_per_client :
    (∀ (b : Bool) (msgs : List Msg) (c : Nat),
       countKey (runGW (initGW b) msgs).1.receiverPCs c ≤ 1) ∧
    (∀ (c : Nat) (s : GW) (old : PC),
       s.wrtcLoaded = true → c ∈ s.connections →
       getPC s.receiverPCs c = some old →
       (∃ mid, (createReceiverConnection c s).2
          = Ev.consumerClosed old.pcId :: mid
              ++ [Ev.consumerCreated s.nextId, Ev.emitOfferTo c]) ∧
       (∃ pcNew, getPC (createReceiverConnection c s).1.receiverPCs c
          = some pcNew ∧ pcNew.pcId = s.nextId) ∧
       (∀ d, d ≠ c → getPC (createReceiverConnection c s).1.receiverPCs d
          = getPC s.receiverPCs d)) := by
  constructor
  · intro b msgs c
    refine runGW_RPok msgs (initGW b) ?_ c
    intro k
    simp [initGW, countKey]
  · intro c s old hw hc hg
    have hw2 : ¬ (s.wrtcLoaded = false) := by simp [hw]
    refine ⟨?_, ?_, ?_⟩
    · by_cases hwait : (s.receivedStream.isSome ∧
          (streamTracks s.receivedStream).filter isLive = [])
      · refine ⟨[Ev.scheduledTrackWait c], ?_⟩
        simp [createReceiverConnection, hw2, hc, hg, hwait]
      · refine ⟨[], ?_⟩
        simp [createReceiverConnection, hw2, hc, hg, hwait]
        intro hsome
        by_cases hfe : (streamTracks s.receivedStream).filter isLive = []
        · exact absurd ⟨hsome, hfe⟩ hwait
        · rcases List.exists_mem_of_ne_nil _ hfe with ⟨x, hx⟩
          rw [List.mem_filter] at hx
          exact ⟨x, hx.1, hx.2⟩
    · refine ⟨PC.mk s.nextId false []
        ((streamTracks s.receivedStream).filter isLive) [], ?_, rfl⟩
      simp [createReceiverConnection, hw2, hc, getPC_setPC_same]
    · intro d hd
      simp [createReceiverConnection, hw2, hc,
            getPC_setPC_other _ _ _ _ hd]

/-- Witness for C9: a run creating one consumer connection, and the
re-creation for client 1 of `stMisroute`, which closes connection 11
before creating connection 12. -/
theorem C9_witness :
    countKey (runGW (initGW true)
        [Msg.connect 1, Msg.receiverConnTimer 1]).1.receiverPCs 1 ≤ 1 ∧
    (∃ mid, (createReceiverConnection 1 stMisroute).2
       = Ev.consumerClosed rpcB.pcId :: mid
           ++ [Ev.consumerCreated stMisroute.nextId, Ev.emitOfferTo 1]) :=
  ⟨C9_one_consumer_connection_per_client.1 true
      [Msg.connect 1, Msg.receiverConnTimer 1] 1,
   (C9_one_consumer_connection_per_client.2 1 stMisroute rpcB rfl
      (by decide) (by decide)).1⟩
